import Mathlib

/-!
Verification of the motion-triggered depth clip capture pipeline
(`src/producer/realsense_depth_clip_capture.py` and the bounded save queue of
`src/producer/capture_video_clip_with_depth.py`).

Depth frames are modelled as flat lists of per-pixel depth values in
millimetres (rationals; value 0 is the sentinel for "no valid reading").
The Python `random.random()` stream is modelled as an explicit state
(`RngState`): an infinite stream of samples plus a cursor position.
-/

/-- A depth or color frame: flat list of per-pixel values. -/
abbrev Frame := List ℚ

/-- One event observed by the acquisition loop when waiting for a frame pair:
either an aligned depth+color pair arrives, or a miss (timeout / missing
depth or color frame). -/
inductive FrameEvent where
  | ok (depth : Frame) (color : Frame)
  | miss
deriving DecidableEq

/-- Reason string returned by `should_save_clip`. -/
inductive SaveReason where
  | motion
  | no_motion_sampled
  | no_motion_skipped
deriving DecidableEq

/-- Reason returned by `validate_clip`. -/
inductive ValidationReason where
  | valid
  | insufficient_frames
  | frame_count_mismatch
  | insufficient_depth_coverage
deriving DecidableEq

/-- State of Python's global `random` source: a deterministic stream of
samples (fixed by the seed) and the position of the next draw. -/
structure RngState where
  stream : ℕ → ℚ
  pos : ℕ

/-- One draw from the random source (`random.random()`). -/
def randomRandom (r : RngState) : ℚ × RngState :=
  (r.stream r.pos, { r with pos := r.pos + 1 })

/-- Running counters of `RealSenseDepthClipCapture`. -/
structure Stats where
  clip_count : ℕ
  motion_clips_saved : ℕ
  no_motion_clips_saved : ℕ
  no_motion_clips_skipped : ℕ
  clips_validation_failed : ℕ
deriving DecidableEq

/-- Embedding of `RealSenseDepthClipCapture.calculate_motion`: fraction of pixels, valid
(non-zero) in both frames, whose absolute depth change exceeds the motion
threshold; 0 when no pixel is valid in both frames. -/
def calculate_motion (motion_threshold : ℚ) (depth_frame_1 depth_frame_2 : Frame) : ℚ :=
  let valid := (depth_frame_1.zip depth_frame_2).filter
    (fun p => decide (0 < p.1) && decide (0 < p.2))
  if valid.length = 0 then 0
  else
    let moving := valid.filter (fun p => decide (motion_threshold < |p.2 - p.1|))
    (moving.length : ℚ) / (valid.length : ℚ)

/-- The consecutive frame pairs `(frames[i], frames[i+1])` compared by
`has_motion`. -/
def consecutivePairs (frames : List Frame) : List (Frame × Frame) :=
  frames.zip frames.tail

/-- The list of pairwise motion scores of a clip. -/
def pairwiseScores (motion_threshold : ℚ) (frames : List Frame) : List ℚ :=
  (consecutivePairs frames).map (fun p => calculate_motion motion_threshold p.1 p.2)

/-- Arithmetic mean of a list of rationals, 0 for the empty list (the
`if comparisons > 0 else 0.0` guard in `has_motion`). -/
def listMean (l : List ℚ) : ℚ :=
  if 0 < l.length then l.sum / (l.length : ℚ) else 0

/-- Embedding of `RealSenseDepthClipCapture.has_motion`: average the pairwise motion
scores over consecutive frames; motion iff the average strictly exceeds
`motion_pixel_percent`. Returns `(false, 0)` for clips with fewer than
2 frames. -/
def has_motion (motion_threshold motion_pixel_percent : ℚ)
    (frames : List Frame) : Bool × ℚ :=
  if frames.length < 2 then (false, 0)
  else
    let avg := listMean (pairwiseScores motion_threshold frames)
    (decide (motion_pixel_percent < avg), avg)

/-- Embedding of `RealSenseDepthClipCapture.should_save_clip`: motion clips are always
saved; no-motion clips are kept iff one uniform draw is below
`no_motion_keep_probability`. Returns the updated random state. -/
def should_save_clip (no_motion_keep_probability : ℚ)
    (has_motion_result : Bool) (motion_score : ℚ)
    (r : RngState) : (Bool × SaveReason) × RngState :=
  if has_motion_result then
    ((true, SaveReason.motion), r)
  else if (randomRandom r).1 < no_motion_keep_probability then
    ((true, SaveReason.no_motion_sampled), (randomRandom r).2)
  else
    ((false, SaveReason.no_motion_skipped), (randomRandom r).2)

/-- Per-frame fraction of valid (non-zero) pixels, 0 for an empty frame
(the `if total_pixels > 0 else 0.0` guard in `validate_clip`). -/
def validRatio (frame : Frame) : ℚ :=
  if 0 < frame.length then
    ((frame.filter (fun x => decide (0 < x))).length : ℚ) / (frame.length : ℚ)
  else 0

/-- Embedding of `RealSenseDepthClipCapture.validate_clip`: frame-count floor, depth/color
length match, then average valid-depth coverage at least 0.3. -/
def validate_clip (min_frames_ratio : ℚ) (depth_frames color_frames : List Frame)
    (expected_frames : ℕ) : Bool × ValidationReason :=
  if (depth_frames.length : ℚ) < (expected_frames : ℚ) * min_frames_ratio then
    (false, ValidationReason.insufficient_frames)
  else if depth_frames.length ≠ color_frames.length then
    (false, ValidationReason.frame_count_mismatch)
  else
    let ratios := depth_frames.map validRatio
    let avg := ratios.sum / (ratios.length : ℚ)
    if avg < 3 / 10 then (false, ValidationReason.insufficient_depth_coverage)
    else (true, ValidationReason.valid)

/- ## Claims about the motion classifier -/

lemma calculate_motion_nonneg (thr : ℚ) (d1 d2 : Frame) :
    0 ≤ calculate_motion thr d1 d2 := by
  unfold calculate_motion
  dsimp only
  split
  · exact le_refl 0
  · exact div_nonneg (by positivity) (by positivity)

lemma calculate_motion_le_one (thr : ℚ) (d1 d2 : Frame) :
    calculate_motion thr d1 d2 ≤ 1 := by
  unfold calculate_motion
  dsimp only
  split
  · exact zero_le_one
  · rename_i hne
    have hpos : 0 < (((d1.zip d2).filter
        (fun p => decide (0 < p.1) && decide (0 < p.2))).length : ℚ) := by
      have : 0 < ((d1.zip d2).filter
          (fun p => decide (0 < p.1) && decide (0 < p.2))).length :=
        Nat.pos_of_ne_zero hne
      exact_mod_cast this
    rw [div_le_one hpos]
    exact_mod_cast Nat.cast_le.mpr (List.length_filter_le _ _)

lemma listMean_nonneg {l : List ℚ} (h : ∀ x ∈ l, 0 ≤ x) : 0 ≤ listMean l := by
  unfold listMean
  split
  · exact div_nonneg (List.sum_nonneg h) (by positivity)
  · exact le_refl 0

lemma listMean_le_one {l : List ℚ} (h : ∀ x ∈ l, x ≤ 1) : listMean l ≤ 1 := by
  unfold listMean
  split
  · rename_i hlen
    have hs : l.sum ≤ (l.length : ℚ) := by
      have := List.sum_le_card_nsmul l 1 h
      simpa using this
    rw [div_le_one (by exact_mod_cast hlen)]
    exact hs
  · exact zero_le_one

/-- C1 -- The clip motion score is the arithmetic mean of the pairwise
motion scores of consecutive depth-frame pairs; a clip with fewer than 2
frames yields `(false, 0)`; `has_motion` is true exactly when the clip score
strictly exceeds `motion_pixel_percent`, so a score exactly equal to the
threshold yields `has_motion = false`. -/
theorem clip_score_is_mean_and_threshold_strict
    (thr frac : ℚ) (frames : List Frame) :
    (frames.length < 2 → has_motion thr frac frames = (false, 0)) ∧
    (2 ≤ frames.length →
      (has_motion thr frac frames).2 =
        (pairwiseScores thr frames).sum / ((pairwiseScores thr frames).length : ℚ) ∧
      ((has_motion thr frac frames).1 = true ↔ frac < (has_motion thr frac frames).2)) ∧
    ((has_motion thr frac frames).2 = frac → (has_motion thr frac frames).1 = false) := by
  refine ⟨fun h => by simp [has_motion, h], fun h => ?_, fun h => ?_⟩
  · have hnl : ¬ frames.length < 2 := Nat.not_lt.mpr h
    have hlen : 0 < (pairwiseScores thr frames).length := by
      unfold pairwiseScores consecutivePairs
      rcases frames with _ | ⟨a, _ | ⟨b, t⟩⟩
      · simp at h
      · simp at h
      · simp
    constructor
    · simp only [has_motion, if_neg hnl, listMean, if_pos hlen]
    · simp only [has_motion, if_neg hnl]
      exact decide_eq_true_iff
  · by_cases hl : frames.length < 2
    · simp [has_motion, hl]
    · simp only [has_motion, if_neg hl] at h ⊢
      subst h
      simp

/-- C1 witness. -/
theorem clip_score_is_mean_and_threshold_strict_witness :
    has_motion 100 0 ([] : List Frame) = (false, 0) ∧
    (has_motion 100 0 [[(5 : ℚ)], [5], [5]]).2 =
      (pairwiseScores 100 [[(5 : ℚ)], [5], [5]]).sum /
        ((pairwiseScores 100 [[(5 : ℚ)], [5], [5]]).length : ℚ) ∧
    (has_motion 100 0 [[(5 : ℚ)], [5], [5]]).1 = false := by
  refine ⟨(clip_score_is_mean_and_threshold_strict 100 0 []).1 (by decide),
    ((clip_score_is_mean_and_threshold_strict 100 0 [[(5 : ℚ)], [5], [5]]).2.1
      (by decide)).1,
    (clip_score_is_mean_and_threshold_strict 100 0 [[(5 : ℚ)], [5], [5]]).2.2 ?_⟩
  norm_num [has_motion, pairwiseScores, consecutivePairs, calculate_motion, listMean]

/-- C2 -- A clip with motion is always saved with category `motion`, for every
keep probability, score and random state; the random source is not consulted
(the state, including its cursor, is returned unchanged). -/
theorem motion_clip_always_saved (p score : ℚ) (r : RngState) :
    should_save_clip p true score r = ((true, SaveReason.motion), r) ∧
    (should_save_clip p true score r).2.pos = r.pos := ⟨rfl, rfl⟩

/-- C9 -- Every pairwise motion score and every clip-level motion score lies
in the closed interval [0, 1]. -/
theorem motion_score_in_unit_interval (thr frac : ℚ) (d1 d2 : Frame)
    (frames : List Frame) :
    (0 ≤ calculate_motion thr d1 d2 ∧ calculate_motion thr d1 d2 ≤ 1) ∧
    (0 ≤ (has_motion thr frac frames).2 ∧ (has_motion thr frac frames).2 ≤ 1) := by
  refine ⟨⟨calculate_motion_nonneg thr d1 d2, calculate_motion_le_one thr d1 d2⟩, ?_⟩
  unfold has_motion
  split
  · exact ⟨le_refl 0, zero_le_one⟩
  · constructor
    · exact listMean_nonneg (by
        intro x hx
        unfold pairwiseScores at hx
        obtain ⟨p, _, hp⟩ := List.mem_map.mp hx
        exact hp ▸ calculate_motion_nonneg thr p.1 p.2)
    · exact listMean_le_one (by
        intro x hx
        unfold pairwiseScores at hx
        obtain ⟨p, _, hp⟩ := List.mem_map.mp hx
        exact hp ▸ calculate_motion_le_one thr p.1 p.2)

/-- C6 -- A frame pair with empty valid overlap scores 0 (the division is
guarded, never reached), and a clip all of whose consecutive pairs have empty
valid overlap yields clip score 0 and `has_motion = false` (for a nonnegative
pixel-fraction threshold). -/
theorem empty_overlap_scores_zero (thr frac : ℚ) (d1 d2 : Frame)
    (frames : List Frame)
    (h : (d1.zip d2).filter (fun p => decide (0 < p.1) && decide (0 < p.2)) = [])
    (hall : ∀ p ∈ consecutivePairs frames,
      (p.1.zip p.2).filter (fun q => decide (0 < q.1) && decide (0 < q.2)) = [])
    (hfrac : 0 ≤ frac) :
    calculate_motion thr d1 d2 = 0 ∧ has_motion thr frac frames = (false, 0) := by
  have hcm : ∀ e1 e2 : Frame,
      (e1.zip e2).filter (fun q => decide (0 < q.1) && decide (0 < q.2)) = [] →
      calculate_motion thr e1 e2 = 0 := by
    intro e1 e2 he
    unfold calculate_motion
    rw [he]
    simp
  refine ⟨hcm d1 d2 h, ?_⟩
  have hscores : ∀ x ∈ pairwiseScores thr frames, x = 0 := by
    intro x hx
    obtain ⟨p, hp, hpx⟩ := List.mem_map.mp hx
    exact hpx ▸ hcm p.1 p.2 (hall p hp)
  have hmean : listMean (pairwiseScores thr frames) = 0 := by
    unfold listMean
    split
    · rw [List.sum_eq_zero hscores]
      simp
    · rfl
  unfold has_motion
  split
  · rfl
  · rw [hmean]
    simp [Prod.ext_iff]
    exact hfrac

/-- C6 witness. -/
theorem empty_overlap_scores_zero_witness :
    calculate_motion 100 [(0 : ℚ), 5] [3, 0] = 0 ∧
    has_motion 100 (1 / 100) [[(0 : ℚ)], [1]] = (false, 0) := by
  refine empty_overlap_scores_zero 100 (1 / 100) [(0 : ℚ), 5] [3, 0]
    [[(0 : ℚ)], [1]] ?_ ?_ (by norm_num)
  · norm_num [List.filter]
  · intro p hp
    have hcp : consecutivePairs [[(0 : ℚ)], [1]] = [([(0 : ℚ)], [1])] := rfl
    rw [hcp, List.mem_singleton] at hp
    subst hp
    norm_num [List.filter]

/- ## Claims about the validator -/

/-- C4 -- A clip with `expectedFrameCount * minFrameRatio - 1` depth frames
is rejected as `insufficient_frames`; with exactly
`expectedFrameCount * minFrameRatio` depth frames the `insufficient_frames`
rejection cannot occur (boundary inclusive). -/
theorem validator_frame_count_boundary (min_frames_ratio : ℚ)
    (depthA colorA depthB colorB : List Frame) (expected_frames : ℕ)
    (hA : (depthA.length : ℚ) = (expected_frames : ℚ) * min_frames_ratio - 1)
    (hB : (depthB.length : ℚ) = (expected_frames : ℚ) * min_frames_ratio) :
    validate_clip min_frames_ratio depthA colorA expected_frames =
      (false, ValidationReason.insufficient_frames) ∧
    (validate_clip min_frames_ratio depthB colorB expected_frames).2 ≠
      ValidationReason.insufficient_frames := by
  constructor
  · have hlt : (depthA.length : ℚ) < (expected_frames : ℚ) * min_frames_ratio := by
      rw [hA]; linarith
    unfold validate_clip
    rw [if_pos hlt]
  · have hge : ¬ ((depthB.length : ℚ) < (expected_frames : ℚ) * min_frames_ratio) := by
      rw [hB]; exact lt_irrefl _
    unfold validate_clip
    rw [if_neg hge]
    split
    · simp
    · dsimp only
      split
      · simp
      · simp

/-- C4 witness: expected 45 frames, ratio 4/5, boundary at 36. -/
theorem validator_frame_count_boundary_witness :
    validate_clip (4 / 5) (List.replicate 35 ([] : Frame))
        (List.replicate 35 ([] : Frame)) 45 =
      (false, ValidationReason.insufficient_frames) ∧
    (validate_clip (4 / 5) (List.replicate 36 ([] : Frame))
        (List.replicate 36 ([] : Frame)) 45).2 ≠
      ValidationReason.insufficient_frames :=
  validator_frame_count_boundary (4 / 5) (List.replicate 35 ([] : Frame))
    (List.replicate 35 ([] : Frame)) (List.replicate 36 ([] : Frame))
    (List.replicate 36 ([] : Frame)) 45 (by norm_num) (by norm_num)

/-- C5 -- On a clip passing the frame-count and length-match gates, the
validator averages the per-frame fractions of non-sentinel pixels and rejects
with `insufficient_depth_coverage` exactly when that average is below 0.30,
accepting as `valid` otherwise; the per-frame fraction of a nonempty frame is
the number of positive pixels over the pixel count. (The embedding is a total
function: it returns a result on every input.) -/
theorem validator_coverage_gate (min_frames_ratio : ℚ)
    (depth color : List Frame) (expected_frames : ℕ) (frame : Frame)
    (h1 : ¬ ((depth.length : ℚ) < (expected_frames : ℚ) * min_frames_ratio))
    (h2 : depth.length = color.length)
    (h3 : frame ≠ []) :
    validate_clip min_frames_ratio depth color expected_frames =
      (if (depth.map validRatio).sum / (depth.length : ℚ) < 3 / 10 then
        (false, ValidationReason.insufficient_depth_coverage)
      else (true, ValidationReason.valid)) ∧
    validRatio frame =
      ((frame.filter (fun x => decide (0 < x))).length : ℚ) / (frame.length : ℚ) := by
  constructor
  · unfold validate_clip
    rw [if_neg h1, if_neg (by simp [h2])]
    simp only [List.length_map]
  · unfold validRatio
    rw [if_pos (List.length_pos.mpr h3)]

/-- C5 witness. -/
theorem validator_coverage_gate_witness :
    validate_clip (4 / 5) [[(10 : ℚ)], [10]] [[(1 : ℚ)], [1]] 2 =
      (true, ValidationReason.valid) ∧
    validRatio [(10 : ℚ), 0] = 1 / 2 := by
  have h := validator_coverage_gate (4 / 5) [[(10 : ℚ)], [10]] [[(1 : ℚ)], [1]] 2
    [(10 : ℚ), 0] (by norm_num) (by norm_num) (by simp)
  refine ⟨h.1.trans ?_, h.2.trans ?_⟩
  · norm_num [validRatio, List.filter]
  · norm_num [List.filter]

/- ## Claims about the sampling policy -/

/-- Fold of `should_save_clip` over a sequence of `(has_motion, score)`
assessments, threading the random state (the capture loop makes exactly one
such call per accepted clip). -/
def runPolicy (no_motion_keep_probability : ℚ) :
    List (Bool × ℚ) → RngState → List (Bool × SaveReason) × RngState
  | [], r => ([], r)
  | a :: rest, r =>
    ((should_save_clip no_motion_keep_probability a.1 a.2 r).1 ::
        (runPolicy no_motion_keep_probability rest
          (should_save_clip no_motion_keep_probability a.1 a.2 r).2).1,
      (runPolicy no_motion_keep_probability rest
        (should_save_clip no_motion_keep_probability a.1 a.2 r).2).2)

/-- C8 -- The sampling policy is deterministic in the seeded random stream:
two runs over the same sequence of motion assessments, from random states
with the same cursor and pointwise-equal streams (as produced by the same
seed), yield identical sequences of keep/discard outcomes and categories. -/
theorem sampling_policy_reproducible (p : ℚ) (inputs : List (Bool × ℚ))
    (r1 r2 : RngState) (hpos : r1.pos = r2.pos)
    (hstream : ∀ n, r1.stream n = r2.stream n) :
    (runPolicy p inputs r1).1 = (runPolicy p inputs r2).1 := by
  induction inputs generalizing r1 r2 with
  | nil => rfl
  | cons a rest ih =>
    rcases a with ⟨hm, sc⟩
    have hdraw : (randomRandom r1).1 = (randomRandom r2).1 := by
      simp only [randomRandom, hpos, hstream r2.pos]
    have hps : (randomRandom r1).2.pos = (randomRandom r2).2.pos := by
      simp only [randomRandom, hpos]
    have hss : ∀ n, (randomRandom r1).2.stream n = (randomRandom r2).2.stream n := by
      intro n
      simp only [randomRandom]
      exact hstream n
    cases hm with
    | true =>
      simp only [runPolicy, should_save_clip, if_pos]
      exact congrArg _ (ih r1 r2 hpos hstream)
    | false =>
      by_cases hc : (randomRandom r2).1 < p
      · have hc1 : (randomRandom r1).1 < p := by rw [hdraw]; exact hc
        simp only [runPolicy, should_save_clip, Bool.false_eq_true, if_false,
          if_pos hc, if_pos hc1]
        exact congrArg _ (ih _ _ hps hss)
      · have hc1 : ¬ (randomRandom r1).1 < p := by rw [hdraw]; exact hc
        simp only [runPolicy, should_save_clip, Bool.false_eq_true, if_false,
          if_neg hc, if_neg hc1]
        exact congrArg _ (ih _ _ hps hss)

/-- C8 witness: two extensionally equal streams (same seed) give the same
outcome sequence. -/
theorem sampling_policy_reproducible_witness :
    (⟨fun _ => 1 / 2, 0⟩ : RngState).pos = (⟨fun _ => 2 / 4, 0⟩ : RngState).pos ∧
    (runPolicy (1 / 4) [(true, 1), (false, 0), (false, 0)]
        ⟨fun _ => 1 / 2, 0⟩).1 =
      (runPolicy (1 / 4) [(true, 1), (false, 0), (false, 0)]
        ⟨fun _ => 2 / 4, 0⟩).1 :=
  ⟨rfl, sampling_policy_reproducible (1 / 4) [(true, 1), (false, 0), (false, 0)]
    ⟨fun _ => 1 / 2, 0⟩ ⟨fun _ => 2 / 4, 0⟩ rfl (fun _ => by norm_num)⟩

/- ## Acquisition loop and per-clip processing (`capture_continuous`) -/

/-- Configuration knobs of `RealSenseDepthClipCapture` used by the capture
loop (`expected_frames = int(clip_duration * fps)`). -/
structure CaptureConfig where
  motion_threshold : ℚ
  motion_pixel_percent : ℚ
  no_motion_keep_probability : ℚ
  min_frames_ratio : ℚ
  max_frame_misses : ℕ
  expected_frames : ℕ

/-- The inner frame-collection loop of `capture_continuous`: consume events
until `expected` frames are collected; a successful pair resets the miss
counter to 0 and is appended; a miss increments it, and once it exceeds
`maxMisses` the clip aborts immediately. Returns the collected pairs, the
miss-abort flag, and the unconsumed events. -/
def acqLoop (maxMisses expected : ℕ) :
    List FrameEvent → ℕ → List (Frame × Frame) →
      List (Frame × Frame) × Bool × List FrameEvent
  | [], _, acc => (acc, false, [])
  | e :: rest, misses, acc =>
    if acc.length < expected then
      match e with
      | FrameEvent.ok d c => acqLoop maxMisses expected rest 0 (acc ++ [(d, c)])
      | FrameEvent.miss =>
        if misses + 1 > maxMisses then (acc, true, rest)
        else acqLoop maxMisses expected rest (misses + 1) acc
    else (acc, false, e :: rest)

/-- The unit handed to persistence for a saved clip: the clip data, the
category it was saved under, and its motion score. -/
structure PersistenceTask where
  depth_frames : List Frame
  color_frames : List Frame
  category : SaveReason
  motion_score : ℚ
deriving DecidableEq

/-- One iteration of `capture_continuous`: bump the clip counter, collect
frames, apply the post-loop miss/shortfall gate, validate, classify, sample,
and save. `saveOk = false` models `save_clip` raising: the loop continues and
no counter other than `clip_count` changes. Returns the new statistics, the
new random state, and the persistence task of the saved clip (if any). -/
def processClip (cfg : CaptureConfig) (events : List FrameEvent) (saveOk : Bool)
    (r : RngState) (st : Stats) : Stats × RngState × Option PersistenceTask :=
  let st1 := { st with clip_count := st.clip_count + 1 }
  let res := acqLoop cfg.max_frame_misses cfg.expected_frames events 0 []
  let depth_frames := res.1.map Prod.fst
  let color_frames := res.1.map Prod.snd
  if res.2.1 = true ∨
      ((res.1.length : ℚ) < (cfg.expected_frames : ℚ) * cfg.min_frames_ratio) then
    ({ st1 with clips_validation_failed := st1.clips_validation_failed + 1 }, r, none)
  else if (validate_clip cfg.min_frames_ratio depth_frames color_frames
      cfg.expected_frames).1 = false then
    ({ st1 with clips_validation_failed := st1.clips_validation_failed + 1 }, r, none)
  else
    let hm := has_motion cfg.motion_threshold cfg.motion_pixel_percent depth_frames
    let sres := should_save_clip cfg.no_motion_keep_probability hm.1 hm.2 r
    if sres.1.1 then
      if saveOk then
        if sres.1.2 = SaveReason.motion then
          ({ st1 with motion_clips_saved := st1.motion_clips_saved + 1 }, sres.2,
            some ⟨depth_frames, color_frames, sres.1.2, hm.2⟩)
        else
          ({ st1 with no_motion_clips_saved := st1.no_motion_clips_saved + 1 }, sres.2,
            some ⟨depth_frames, color_frames, sres.1.2, hm.2⟩)
      else (st1, sres.2, none)
    else
      ({ st1 with no_motion_clips_skipped := st1.no_motion_clips_skipped + 1 }, sres.2, none)

/-- The outer `while True` loop of `capture_continuous` over a sequence of
per-clip inputs (frame events and whether `save_clip` would succeed). -/
def captureRun (cfg : CaptureConfig) :
    List (List FrameEvent × Bool) → RngState → Stats →
      Stats × RngState × List (Option PersistenceTask)
  | [], r, st => (st, r, [])
  | clip :: rest, r, st =>
    ((captureRun cfg rest (processClip cfg clip.1 clip.2 r st).2.1
        (processClip cfg clip.1 clip.2 r st).1).1,
      (captureRun cfg rest (processClip cfg clip.1 clip.2 r st).2.1
        (processClip cfg clip.1 clip.2 r st).1).2.1,
      (processClip cfg clip.1 clip.2 r st).2.2 ::
        (captureRun cfg rest (processClip cfg clip.1 clip.2 r st).2.1
          (processClip cfg clip.1 clip.2 r st).1).2.2)

lemma acqLoop_abort_short (maxMisses expected : ℕ) :
    ∀ (events : List FrameEvent) (misses : ℕ) (acc acc2 : List (Frame × Frame))
      (rest : List FrameEvent),
      acqLoop maxMisses expected events misses acc = (acc2, true, rest) →
      acc2.length < expected := by
  intro events
  induction events with
  | nil =>
    intro misses acc acc2 rest h
    simp only [acqLoop, Prod.mk.injEq] at h
    exact absurd h.2.1 (by simp)
  | cons e tail ih =>
    intro misses acc acc2 rest h
    by_cases hlen : acc.length < expected
    · cases e with
      | ok d c =>
        rw [acqLoop, if_pos hlen] at h
        exact ih 0 (acc ++ [(d, c)]) acc2 rest h
      | miss =>
        rw [acqLoop, if_pos hlen] at h
        by_cases hm : misses + 1 > maxMisses
        · rw [if_pos hm] at h
          simp only [Prod.mk.injEq] at h
          exact h.1 ▸ hlen
        · rw [if_neg hm] at h
          exact ih (misses + 1) acc acc2 rest h
    · cases e with
      | ok d c =>
        rw [acqLoop, if_neg hlen] at h
        simp only [Prod.mk.injEq] at h
        exact absurd h.2.1 (by simp)
      | miss =>
        rw [acqLoop, if_neg hlen] at h
        simp only [Prod.mk.injEq] at h
        exact absurd h.2.1 (by simp)

lemma captureRun_length (cfg : CaptureConfig) :
    ∀ (clips : List (List FrameEvent × Bool)) (r : RngState) (st : Stats),
      (captureRun cfg clips r st).2.2.length = clips.length := by
  intro clips
  induction clips with
  | nil => intro r st; rfl
  | cons c rest ih =>
    intro r st
    simp only [captureRun, List.length_cons]
    rw [ih]

/-- C3 -- When the consecutive-miss counter exceeds `maxMisses`, the clip
aborts before reaching the target frame count, is counted as exactly one
validation failure with every other counter unchanged, produces no
persistence task, leaves the random state untouched, and the run goes on to
process every subsequent clip; a successful frame pair resets the miss
counter to zero. -/
theorem miss_abort_discards_clip_and_run_continues (cfg : CaptureConfig)
    (events : List FrameEvent) (acc : List (Frame × Frame)) (rest : List FrameEvent)
    (h : acqLoop cfg.max_frame_misses cfg.expected_frames events 0 [] =
      (acc, true, rest)) :
    acc.length < cfg.expected_frames ∧
    (∀ (saveOk : Bool) (r : RngState) (st : Stats),
      processClip cfg events saveOk r st =
        ({ st with clip_count := st.clip_count + 1, clips_validation_failed := st.clips_validation_failed + 1 }, r, none)) ∧
    (∀ (clips : List (List FrameEvent × Bool)) (r : RngState) (st : Stats),
      (captureRun cfg ((events, true) :: clips) r st).2.2.length = clips.length + 1) ∧
    (∀ (d c : Frame) (evs : List FrameEvent) (misses : ℕ)
      (a : List (Frame × Frame)), a.length < cfg.expected_frames →
      acqLoop cfg.max_frame_misses cfg.expected_frames
          (FrameEvent.ok d c :: evs) misses a =
        acqLoop cfg.max_frame_misses cfg.expected_frames evs 0 (a ++ [(d, c)])) := by
  refine ⟨acqLoop_abort_short _ _ events 0 [] acc rest h, ?_, ?_, ?_⟩
  · intro saveOk r st
    simp only [processClip, h]
    rw [if_pos (Or.inl trivial)]
  · intro clips r st
    rw [captureRun_length]
    rfl
  · intro d c evs misses a ha
    rw [acqLoop, if_pos ha]

/-- C3 witness: 6 consecutive misses with `maxMisses = 5`. -/
theorem miss_abort_discards_clip_and_run_continues_witness :
    acqLoop 5 45 (List.replicate 6 FrameEvent.miss) 0 [] = ([], true, []) ∧
    processClip ⟨100, 1 / 100, 1 / 4, 4 / 5, 5, 45⟩
        (List.replicate 6 FrameEvent.miss) true ⟨fun _ => 0, 0⟩ ⟨0, 0, 0, 0, 0⟩ =
      (⟨1, 0, 0, 0, 1⟩, ⟨fun _ => 0, 0⟩, none) :=
  ⟨rfl,
    (miss_abort_discards_clip_and_run_continues ⟨100, 1 / 100, 1 / 4, 4 / 5, 5, 45⟩
      (List.replicate 6 FrameEvent.miss) [] [] rfl).2.1 true ⟨fun _ => 0, 0⟩
      ⟨0, 0, 0, 0, 0⟩⟩

/-- C10 -- If the save step (`save_clip`) raises on an accepted clip, the loop continues and
none of the saved/skipped/failed counters changes; only the clips-attempted
counter (`clip_count`) increments and no persistence task is produced, so the
sum of saved, skipped and failed can fall strictly below the attempted
count. -/
theorem save_error_leaves_counters_unchanged (cfg : CaptureConfig)
    (events : List FrameEvent) (acc : List (Frame × Frame)) (rest : List FrameEvent)
    (r : RngState) (st : Stats)
    (h0 : acqLoop cfg.max_frame_misses cfg.expected_frames events 0 [] =
      (acc, false, rest))
    (h1 : ¬ ((acc.length : ℚ) < (cfg.expected_frames : ℚ) * cfg.min_frames_ratio))
    (h2 : (validate_clip cfg.min_frames_ratio (acc.map Prod.fst) (acc.map Prod.snd)
      cfg.expected_frames).1 = true)
    (h3 : (should_save_clip cfg.no_motion_keep_probability
        (has_motion cfg.motion_threshold cfg.motion_pixel_percent (acc.map Prod.fst)).1
        (has_motion cfg.motion_threshold cfg.motion_pixel_percent (acc.map Prod.fst)).2
        r).1.1 = true) :
    processClip cfg events false r st =
      ({ st with clip_count := st.clip_count + 1 },
        (should_save_clip cfg.no_motion_keep_probability
          (has_motion cfg.motion_threshold cfg.motion_pixel_percent (acc.map Prod.fst)).1
          (has_motion cfg.motion_threshold cfg.motion_pixel_percent (acc.map Prod.fst)).2
          r).2, none) ∧
    (st.motion_clips_saved + st.no_motion_clips_saved + st.no_motion_clips_skipped +
        st.clips_validation_failed = st.clip_count →
      (processClip cfg events false r st).1.motion_clips_saved +
          (processClip cfg events false r st).1.no_motion_clips_saved +
          (processClip cfg events false r st).1.no_motion_clips_skipped +
          (processClip cfg events false r st).1.clips_validation_failed <
        (processClip cfg events false r st).1.clip_count) := by
  have hmain : processClip cfg events false r st =
      ({ st with clip_count := st.clip_count + 1 },
        (should_save_clip cfg.no_motion_keep_probability
          (has_motion cfg.motion_threshold cfg.motion_pixel_percent (acc.map Prod.fst)).1
          (has_motion cfg.motion_threshold cfg.motion_pixel_percent (acc.map Prod.fst)).2
          r).2, none) := by
    simp only [processClip, h0]
    rw [if_neg (by simp [h1]), if_neg (by simp [h2]), if_pos h3]
    rfl
  refine ⟨hmain, fun hsum => ?_⟩
  rw [hmain]
  simp only
  omega

/-- C10 witness: a valid motion clip whose save fails. -/
theorem save_error_leaves_counters_unchanged_witness :
    (processClip ⟨100, 1 / 100, 1 / 4, 1, 5, 2⟩
        [FrameEvent.ok [1000] [7], FrameEvent.ok [2000] [7]] false
        ⟨fun _ => 0, 0⟩ ⟨3, 1, 1, 0, 1⟩).1 = ⟨4, 1, 1, 0, 1⟩ ∧
    (processClip ⟨100, 1 / 100, 1 / 4, 1, 5, 2⟩
        [FrameEvent.ok [1000] [7], FrameEvent.ok [2000] [7]] false
        ⟨fun _ => 0, 0⟩ ⟨3, 1, 1, 0, 1⟩).2.2 = none ∧
    1 + 1 + 0 + 1 < 4 := by
  have h := save_error_leaves_counters_unchanged ⟨100, 1 / 100, 1 / 4, 1, 5, 2⟩
    [FrameEvent.ok [1000] [7], FrameEvent.ok [2000] [7]]
    [([1000], [7]), ([2000], [7])] [] ⟨fun _ => 0, 0⟩ ⟨3, 1, 1, 0, 1⟩
    rfl (by norm_num) ?_ ?_
  · refine ⟨?_, ?_, ?_⟩
    · rw [h.1]
    · rw [h.1]
    · have := h.2 rfl
      rw [h.1] at this
      exact this
  · norm_num [validate_clip, validRatio, List.filter]
  · norm_num [should_save_clip, has_motion, pairwiseScores, consecutivePairs,
      calculate_motion, listMean]

/- ## Bounded persistence queue (`capture_video_clip_with_depth.py`) -/

/-- The bounded save queue: `Queue(maxsize=capacity)` with its pending
items in FIFO order. -/
structure BoundedQueue (α : Type) where
  capacity : ℕ
  items : List α

/-- Embedding of `save_queue.put_nowait(task)` wrapped in try/except: on a full queue the
exception is caught, the task is dropped (reported, not an error) and the
queue is unchanged; the caller is never blocked. -/
def submit {α : Type} (q : BoundedQueue α) (x : α) : Bool × BoundedQueue α :=
  if q.items.length < q.capacity then (true, ⟨q.capacity, q.items ++ [x]⟩)
  else (false, q)

/-- Submit a sequence of tasks while the worker is paused (nothing is
dequeued in between). Returns the per-task accepted flags and the final
queue. -/
def submitAll {α : Type} : BoundedQueue α → List α → List Bool × BoundedQueue α
  | q, [] => ([], q)
  | q, x :: xs =>
    ((submit q x).1 :: (submitAll (submit q x).2 xs).1,
      (submitAll (submit q x).2 xs).2)

lemma submitAll_spec {α : Type} :
    ∀ (ts : List α) (q : BoundedQueue α),
      (submitAll q ts).2.capacity = q.capacity ∧
      (submitAll q ts).2.items = q.items ++ ts.take (q.capacity - q.items.length) ∧
      (submitAll q ts).1 =
        List.replicate (min (q.capacity - q.items.length) ts.length) true ++
          List.replicate (ts.length - (q.capacity - q.items.length)) false := by
  intro ts
  induction ts with
  | nil =>
    intro q
    simp [submitAll]
  | cons x xs ih =>
    intro q
    by_cases hfree : q.items.length < q.capacity
    · have hsub : submit q x = (true, ⟨q.capacity, q.items ++ [x]⟩) := by
        unfold submit
        rw [if_pos hfree]
      obtain ⟨k, hk⟩ : ∃ k, q.capacity - q.items.length = k + 1 :=
        ⟨q.capacity - q.items.length - 1, by omega⟩
      have ih2 := ih ⟨q.capacity, q.items ++ [x]⟩
      simp only [submitAll, hsub] at ih2 ⊢
      have hk2 : q.capacity - (q.items ++ [x]).length = k := by
        simp only [List.length_append, List.length_singleton]
        omega
      refine ⟨ih2.1, ?_, ?_⟩
      · rw [ih2.2.1]
        simp only [hk2, hk, List.take_succ_cons, List.append_assoc,
          List.singleton_append]
      · rw [ih2.2.2]
        simp only [hk2, hk, List.length_cons]
        have hmin : min (k + 1) (xs.length + 1) = (min k xs.length) + 1 := by
          omega
        have hsubn : xs.length + 1 - (k + 1) = xs.length - k := by omega
        rw [hmin, hsubn, List.replicate_succ]
        rfl
    · have hsub : submit q x = (false, q) := by
        unfold submit
        rw [if_neg hfree]
      have hzero : q.capacity - q.items.length = 0 := by omega
      have ih2 := ih q
      simp only [submitAll, hsub] at ih2 ⊢
      refine ⟨ih2.1, ?_, ?_⟩
      · rw [ih2.2.1, hzero]
        simp
      · rw [ih2.2.2, hzero]
        simp only [List.length_cons, Nat.zero_min, Nat.min_zero,
          List.replicate_zero, List.nil_append, Nat.sub_zero,
          List.replicate_succ]

/-- C7 -- submit never blocks: on a full queue it reports a drop and
leaves the queue unchanged; submitting `n ≥ capacity` distinct tasks to an
empty queue while the worker is paused accepts exactly the first `capacity`
of them (the rest are reported dropped), the queue then holds exactly the
accepted prefix, and no dropped task is among the tasks that can later be
persisted (the queue contents). -/
theorem queue_backpressure_drops_excess {α : Type} (c : ℕ) (ts : List α)
    (q : BoundedQueue α) (x : α)
    (hc : c ≤ ts.length) (hfull : q.capacity ≤ q.items.length) :
    submit q x = (false, q) ∧
    (submitAll ⟨c, []⟩ ts).1 =
      List.replicate c true ++ List.replicate (ts.length - c) false ∧
    (submitAll ⟨c, []⟩ ts).2.items = ts.take c ∧
    (ts.Nodup → ∀ y ∈ ts.drop c, y ∉ (submitAll ⟨c, []⟩ ts).2.items) := by
  have hspec := submitAll_spec ts (⟨c, []⟩ : BoundedQueue α)
  simp only [List.length_nil, Nat.sub_zero, List.nil_append] at hspec
  refine ⟨?_, ?_, hspec.2.1, ?_⟩
  · unfold submit
    rw [if_neg (by omega)]
  · rw [hspec.2.2, Nat.min_eq_left hc]
  · intro hnd y hy
    rw [hspec.2.1]
    exact fun hmem =>
      (List.disjoint_take_drop hnd (le_refl c)) hmem hy

/-- C7 witness: capacity 2, four distinct tasks, plus a full-queue submit. -/
theorem queue_backpressure_drops_excess_witness :
    submit (⟨2, [9, 8]⟩ : BoundedQueue ℕ) 7 = (false, ⟨2, [9, 8]⟩) ∧
    (submitAll (⟨2, []⟩ : BoundedQueue ℕ) [0, 1, 2, 3]).1 =
      [true, true, false, false] ∧
    (submitAll (⟨2, []⟩ : BoundedQueue ℕ) [0, 1, 2, 3]).2.items = [0, 1] ∧
    (3 : ℕ) ∉ (submitAll (⟨2, []⟩ : BoundedQueue ℕ) [0, 1, 2, 3]).2.items := by
  have h := queue_backpressure_drops_excess 2 [0, 1, 2, 3]
    (⟨2, [9, 8]⟩ : BoundedQueue ℕ) 7 (by norm_num) (by norm_num)
  refine ⟨h.1, h.2.1.trans (by rfl), h.2.2.1.trans (by rfl), ?_⟩
  exact h.2.2.2 (by norm_num) 3 (by norm_num)
